import Mathlib

/-!
Shallow embedding of the HPP-Calculator price-ingestion core
(`src/backend/src/services/scraper.service.ts`, the premium middleware
`src/backend/src/middlewares/premium.middleware.ts`, and the cron scheduler
module) together with theorems settling the specification claims.

Machine integers are modelled as `Nat`/`Int`; calendar days are modelled as a
`Nat` day index (the code truncates time-of-day to midnight before using a date
as a key); timestamps (`scrapedAt`) and provenance (`sourceUrl`) fields, which
no claim mentions, are omitted from the record model. External fallible
effects (the Prisma store, the HTTP client, the headless browser) are
modelled by explicit outcome parameters so that every function is total.
-/

namespace HPP

/-- The `CommodityType` Prisma enum: the canonical commodity identifiers used
by `scraper.service.ts` (values as referenced by `COMMODITY_MAP`). -/
inductive CommodityType where
  | BERAS
  | CABAI_MERAH
  | CABAI_RAWIT
  | BAWANG_MERAH
  | BAWANG_PUTIH
  | DAGING_AYAM
  | DAGING_SAPI
  | TELUR_AYAM
  | MINYAK_GORENG
  | GULA_PASIR
  | TEPUNG_TERIGU
  | SUSU
  | TOMAT
  | KENTANG
  | WORTEL
deriving DecidableEq

/-- The `Province` Prisma enum, including the synthetic `NASIONAL` value
(values as referenced by `PROVINCE_MAP`). -/
inductive Province where
  | ACEH
  | SUMATERA_UTARA
  | SUMATERA_BARAT
  | RIAU
  | JAMBI
  | SUMATERA_SELATAN
  | BENGKULU
  | LAMPUNG
  | KEPULAUAN_BANGKA_BELITUNG
  | KEPULAUAN_RIAU
  | DKI_JAKARTA
  | JAWA_BARAT
  | JAWA_TENGAH
  | DI_YOGYAKARTA
  | JAWA_TIMUR
  | BANTEN
  | BALI
  | NUSA_TENGGARA_BARAT
  | NUSA_TENGGARA_TIMUR
  | KALIMANTAN_BARAT
  | KALIMANTAN_TENGAH
  | KALIMANTAN_SELATAN
  | KALIMANTAN_TIMUR
  | KALIMANTAN_UTARA
  | SULAWESI_UTARA
  | SULAWESI_TENGAH
  | SULAWESI_SELATAN
  | SULAWESI_TENGGARA
  | GORONTALO
  | SULAWESI_BARAT
  | MALUKU
  | MALUKU_UTARA
  | PAPUA_BARAT
  | PAPUA
  | NASIONAL
deriving DecidableEq

/-- `COMMODITY_MAP` from `scraper.service.ts` (lines 45-70): synonym key →
canonical commodity, in declaration order. -/
def COMMODITY_MAP : List (String × CommodityType) :=
  [ ("beras", .BERAS)
  , ("beras premium", .BERAS)
  , ("beras medium", .BERAS)
  , ("cabai merah", .CABAI_MERAH)
  , ("cabai merah keriting", .CABAI_MERAH)
  , ("cabai rawit", .CABAI_RAWIT)
  , ("cabai rawit hijau", .CABAI_RAWIT)
  , ("bawang merah", .BAWANG_MERAH)
  , ("bawang putih", .BAWANG_PUTIH)
  , ("daging ayam", .DAGING_AYAM)
  , ("daging ayam ras", .DAGING_AYAM)
  , ("daging sapi", .DAGING_SAPI)
  , ("daging sapi murni", .DAGING_SAPI)
  , ("telur ayam", .TELUR_AYAM)
  , ("telur ayam ras", .TELUR_AYAM)
  , ("minyak goreng", .MINYAK_GORENG)
  , ("minyak goreng curah", .MINYAK_GORENG)
  , ("gula pasir", .GULA_PASIR)
  , ("gula pasir lokal", .GULA_PASIR)
  , ("tepung terigu", .TEPUNG_TERIGU)
  , ("susu", .SUSU)
  , ("tomat", .TOMAT)
  , ("kentang", .KENTANG)
  , ("wortel", .WORTEL)
  ]

/-- `PROVINCE_MAP` from `scraper.service.ts` (lines 72-132). -/
def PROVINCE_MAP : List (String × Province) :=
  [ ("aceh", .ACEH)
  , ("sumatera utara", .SUMATERA_UTARA)
  , ("sumut", .SUMATERA_UTARA)
  , ("sumatera barat", .SUMATERA_BARAT)
  , ("sumbar", .SUMATERA_BARAT)
  , ("riau", .RIAU)
  , ("jambi", .JAMBI)
  , ("sumatera selatan", .SUMATERA_SELATAN)
  , ("sumsel", .SUMATERA_SELATAN)
  , ("bengkulu", .BENGKULU)
  , ("lampung", .LAMPUNG)
  , ("bangka belitung", .KEPULAUAN_BANGKA_BELITUNG)
  , ("kepulauan bangka belitung", .KEPULAUAN_BANGKA_BELITUNG)
  , ("kepulauan riau", .KEPULAUAN_RIAU)
  , ("kepri", .KEPULAUAN_RIAU)
  , ("dki jakarta", .DKI_JAKARTA)
  , ("jakarta", .DKI_JAKARTA)
  , ("jawa barat", .JAWA_BARAT)
  , ("jabar", .JAWA_BARAT)
  , ("jawa tengah", .JAWA_TENGAH)
  , ("jateng", .JAWA_TENGAH)
  , ("di yogyakarta", .DI_YOGYAKARTA)
  , ("yogyakarta", .DI_YOGYAKARTA)
  , ("jawa timur", .JAWA_TIMUR)
  , ("jatim", .JAWA_TIMUR)
  , ("banten", .BANTEN)
  , ("bali", .BALI)
  , ("nusa tenggara barat", .NUSA_TENGGARA_BARAT)
  , ("ntb", .NUSA_TENGGARA_BARAT)
  , ("nusa tenggara timur", .NUSA_TENGGARA_TIMUR)
  , ("ntt", .NUSA_TENGGARA_TIMUR)
  , ("kalimantan barat", .KALIMANTAN_BARAT)
  , ("kalbar", .KALIMANTAN_BARAT)
  , ("kalimantan tengah", .KALIMANTAN_TENGAH)
  , ("kalteng", .KALIMANTAN_TENGAH)
  , ("kalimantan selatan", .KALIMANTAN_SELATAN)
  , ("kalsel", .KALIMANTAN_SELATAN)
  , ("kalimantan timur", .KALIMANTAN_TIMUR)
  , ("kaltim", .KALIMANTAN_TIMUR)
  , ("kalimantan utara", .KALIMANTAN_UTARA)
  , ("kaltara", .KALIMANTAN_UTARA)
  , ("sulawesi utara", .SULAWESI_UTARA)
  , ("sulut", .SULAWESI_UTARA)
  , ("sulawesi tengah", .SULAWESI_TENGAH)
  , ("sulteng", .SULAWESI_TENGAH)
  , ("sulawesi selatan", .SULAWESI_SELATAN)
  , ("sulsel", .SULAWESI_SELATAN)
  , ("sulawesi tenggara", .SULAWESI_TENGGARA)
  , ("sultra", .SULAWESI_TENGGARA)
  , ("gorontalo", .GORONTALO)
  , ("sulawesi barat", .SULAWESI_BARAT)
  , ("sulbar", .SULAWESI_BARAT)
  , ("maluku", .MALUKU)
  , ("maluku utara", .MALUKU_UTARA)
  , ("malut", .MALUKU_UTARA)
  , ("papua barat", .PAPUA_BARAT)
  , ("papua", .PAPUA)
  , ("nasional", .NASIONAL)
  , ("rata-rata nasional", .NASIONAL)
  ]

/-- `normalizeString` (line 138): `str.toLowerCase().trim()`. Embedded over
the string's character list with structurally recursive helpers (lowercase
every character, then strip whitespace from both ends), so that the kernel
can evaluate it on concrete labels. -/
def normalizeString (str : String) : String :=
  ⟨(((str.data.map Char.toLower).dropWhile Char.isWhitespace).reverse.dropWhile
      Char.isWhitespace).reverse⟩

/-- `mapCommodity` (line 142): exact dictionary lookup of the normalized label
in `COMMODITY_MAP`; `|| null` becomes `none`. -/
def mapCommodity (commodityName : String) : Option CommodityType :=
  COMMODITY_MAP.lookup (normalizeString commodityName)

/-- `mapProvince` (line 147). -/
def mapProvince (provinceName : String) : Option Province :=
  PROVINCE_MAP.lookup (normalizeString provinceName)

/-- The `ScrapedPrice` interface (lines 25-31): one raw observation produced
by an adapter. The price is the already-parsed integer (`parsePrice` output);
`date` is a day index (the upsert path never reads it, it keys on "today"). -/
structure ScrapedPrice where
  commodity : String
  province : String
  price : Nat
  unit : String
  date : Nat
deriving DecidableEq

/-- A row of the `CommodityPrice` Prisma table, restricted to the fields the
ingestion core reads or writes and that the claims mention (`scrapedAt` and
`sourceUrl` are omitted). `priceDate` is a day index (midnight-truncated). -/
structure CommodityRecord where
  commodity : CommodityType
  province : Province
  price : Nat
  unit : String
  priceDate : Nat
  isActive : Bool
deriving DecidableEq

/-- A row of the append-only `PriceHistory` Prisma table. -/
structure PriceHistoryEntry where
  commodity : CommodityType
  province : Province
  price : Nat
  priceDate : Nat
deriving DecidableEq

/-- The durable store visible to the ingestion core: the `CommodityPrice`
table and the `PriceHistory` table. Rows are kept in insertion order. -/
structure DB where
  records : List CommodityRecord
  history : List PriceHistoryEntry
deriving DecidableEq

/-- The `commodity_province_priceDate` unique key of the `CommodityPrice`
table: does record `r` sit at triple `(c, p, d)`? -/
def tripleMatches (c : CommodityType) (p : Province) (d : Nat) (r : CommodityRecord) : Bool :=
  r.commodity == c && r.province == p && r.priceDate == d

/-- The rows sitting at the key triple `(c, p, d)`. -/
def matchesFor (c : CommodityType) (p : Province) (d : Nat)
    (recs : List CommodityRecord) : List CommodityRecord :=
  recs.filter (tripleMatches c p d)

/-- The active rows sitting at the key triple `(c, p, d)`. -/
def activeFor (c : CommodityType) (p : Province) (d : Nat)
    (recs : List CommodityRecord) : List CommodityRecord :=
  recs.filter (fun r => tripleMatches c p d r && r.isActive)

/-- The Prisma schema's uniqueness constraint on `CommodityPrice`: at most one
row per `(commodity, province, priceDate)` triple. -/
def RecordsUnique (recs : List CommodityRecord) : Prop :=
  ∀ c p d, (matchesFor c p d recs).length ≤ 1

/-- `prisma.commodityPrice.upsert` keyed on `commodity_province_priceDate`
(lines 350-374 and 514-537): if a row at the triple exists, overwrite its
price and unit and set `isActive := true`; otherwise insert a fresh active
row. Under `RecordsUnique` the update branch touches exactly one row. -/
def updRow (price : Nat) (unit : String) (r : CommodityRecord) : CommodityRecord :=
  { r with price := price, unit := unit, isActive := true }

def upsertRecord (recs : List CommodityRecord) (c : CommodityType) (p : Province)
    (price : Nat) (unit : String) (d : Nat) : List CommodityRecord :=
  if recs.any (tripleMatches c p d) then
    recs.map (fun r => if tripleMatches c p d r then updRow price unit r else r)
  else
    recs ++ [⟨c, p, price, unit, d, true⟩]

/-- One iteration of the `for` loop in `upsertPricesToDatabase`
(lines 334-391). The two store writes are fallible external effects; the
outcome oracles `upsertFails` and `historyFails` say whether the
`commodityPrice.upsert` call, resp. the `priceHistory.create` call, throws for
a given item. Returns the store after the iteration and whether the item
counted as a success. The control flow mirrors the source: an unmappable
commodity or province is skipped as an error; a throwing upsert leaves the
store unchanged and skips the history append (both writes sit in one `try`
block); a throwing history append keeps the already-persisted upsert but
counts as an error. -/
def upsertStep (today : Nat) (upsertFails historyFails : ScrapedPrice → Bool)
    (item : ScrapedPrice) (db : DB) : DB × Bool :=
  match mapCommodity item.commodity, mapProvince item.province with
  | some commodity, some province =>
    if upsertFails item then
      (db, false)
    else
      let recs := upsertRecord db.records commodity province item.price item.unit today
      if historyFails item then
        ({ records := recs, history := db.history }, false)
      else
        ({ records := recs,
           history := db.history ++ [⟨commodity, province, item.price, today⟩] }, true)
  | _, _ => (db, false)

/-- `upsertPricesToDatabase` (lines 328-394): sequentially process every
scraped item, accumulating `(successCount, errorCount)`. `today` is the
midnight-truncated current day used as the upsert key date. -/
def upsertPricesToDatabase (today : Nat) (upsertFails historyFails : ScrapedPrice → Bool) :
    List ScrapedPrice → DB → DB × Nat × Nat
  | [], db => (db, 0, 0)
  | item :: rest, db =>
    let step := upsertStep today upsertFails historyFails item db
    let t := upsertPricesToDatabase today upsertFails historyFails rest step.1
    if step.2 then (t.1, t.2.1 + 1, t.2.2) else (t.1, t.2.1, t.2.2 + 1)

/-- `upsertPricesToDatabase` in the run where no store write throws (the two
outcome oracles report success everywhere). -/
def upsertPricesOk (today : Nat) (prices : List ScrapedPrice) (db : DB) : DB × Nat × Nat :=
  upsertPricesToDatabase today (fun _ => false) (fun _ => false) prices db

/-- The backoff delay computed at line 315 after failed attempt `attempt`:
`Math.min(1000 * Math.pow(2, attempt), 30000)` milliseconds. -/
def retryDelay (attempt : Nat) : Nat :=
  min (1000 * 2 ^ attempt) 30000

/-- Observable trace of one `scrapeWithRetry` execution: the final outcome,
how many times the wrapped method was invoked, and the sequence of backoff
delays slept between consecutive attempts. -/
structure RetryTrace (E A : Type) where
  result : Except E A
  calls : Nat
  delays : List Nat

/-- The `for` loop of `scrapeWithRetry` (lines 304-319). `method` is the
wrapped operation as an outcome oracle indexed by the 1-based attempt number;
`attempt` is the current attempt and `fuel` the number of loop iterations
left (`fuel = maxRetries - attempt + 1`, so `fuel = 1` means this is the last
attempt and a failure is re-thrown). When the loop runs zero iterations the
source falls through to `return []`, represented by the `default` value. -/
def retryGo (method : Nat → Except E A) (default : A) : Nat → Nat → RetryTrace E A
  | _, 0 => ⟨.ok default, 0, []⟩
  | attempt, fuel + 1 =>
    match method attempt with
    | .ok a => ⟨.ok a, 1, []⟩
    | .error err =>
      if fuel = 0 then ⟨.error err, 1, []⟩
      else
        let t := retryGo method default (attempt + 1) fuel
        ⟨t.result, t.calls + 1, retryDelay attempt :: t.delays⟩

/-- `scrapeWithRetry` (lines 300-322) with its `maxRetries` parameter
(default 3): run the method from attempt 1, re-raising the last error after
the final attempt; an exhausted loop returns the empty list. -/
def scrapeWithRetry (method : Nat → Except E (List A)) (maxRetries : Nat) :
    RetryTrace E (List A) :=
  retryGo method [] 1 maxRetries

/-- The `ScraperResult` interface (lines 33-39), minus the wall-clock
`scrapedAt` stamp. -/
structure ScraperResult where
  success : Bool
  data : List ScrapedPrice
  errors : List String
  method : String
deriving DecidableEq

/-- `scrapeCommodityPrices` (lines 400-482). The two adapters are outcome
oracles indexed by attempt number (`apiMethod` for `scrapeViaAPI`,
`pupMethod` for `scrapeViaPuppeteer`), each run through `scrapeWithRetry`
with the default `maxRetries = 3`; `upsertFails`/`historyFails` are the store
oracles forwarded to `upsertPricesToDatabase`. Returns the `ScraperResult`,
the store after the run, and the `systemLog` rows appended (as tag strings);
the function is total — total adapter failure is returned as a
`success := false` result, never raised to the caller. -/
def scrapeCommodityPrices (today : Nat) (upsertFails historyFails : ScrapedPrice → Bool)
    (apiMethod pupMethod : Nat → Except String (List ScrapedPrice))
    (db : DB) (logs : List String) : ScraperResult × DB × List String :=
  let apiTrace := scrapeWithRetry apiMethod 3
  match apiTrace.result with
  | .ok data =>
    if data.length > 0 then
      (⟨true, data, [], "api"⟩,
       (upsertPricesToDatabase today upsertFails historyFails data db).1,
       logs ++ ["SCRAPER_SUCCESS"])
    else (⟨true, data, [], "api"⟩, db, logs)
  | .error apiError =>
    let errors₁ := ["API error: " ++ apiError]
    let pupTrace := scrapeWithRetry pupMethod 3
    match pupTrace.result with
    | .ok data =>
      if data.length > 0 then
        (⟨true, data, errors₁, "puppeteer"⟩,
         (upsertPricesToDatabase today upsertFails historyFails data db).1,
         logs ++ ["SCRAPER_SUCCESS"])
      else (⟨true, data, errors₁, "puppeteer"⟩, db, logs)
    | .error pupError =>
      let errors := errors₁ ++ ["Puppeteer error: " ++ pupError, "All scraping methods failed"]
      (⟨false, [], errors, "api"⟩, db, logs ++ ["SCRAPER_ERROR"])

/-- `Object.values(CommodityType)` (line 492): every canonical commodity,
in declaration order of the Prisma enum. -/
def allCommodities : List CommodityType :=
  [ .BERAS, .CABAI_MERAH, .CABAI_RAWIT, .BAWANG_MERAH, .BAWANG_PUTIH
  , .DAGING_AYAM, .DAGING_SAPI, .TELUR_AYAM, .MINYAK_GORENG, .GULA_PASIR
  , .TEPUNG_TERIGU, .SUSU, .TOMAT, .KENTANG, .WORTEL ]

/-- The `findMany` filter at lines 498-505: active non-NATIONAL rows of
commodity `c` dated `today`. -/
def activeRegionals (c : CommodityType) (today : Nat) (recs : List CommodityRecord) :
    List CommodityRecord :=
  recs.filter (fun r =>
    r.commodity == c && r.priceDate == today && r.isActive && !(r.province == Province.NASIONAL))

/-- `Math.round(totalPrice / prices.length)` (lines 510-511) in exact
arithmetic: for naturals, `round(a / b) = ⌊(2a + b) / (2b)⌋` (half rounds
up, as JavaScript's `Math.round` does for non-negative arguments). -/
def natAvg (prices : List Nat) : Nat :=
  (2 * prices.sum + prices.length) / (2 * prices.length)

/-- One iteration of the commodity loop in `calculateNationalAverages`
(lines 496-538): fetch the active regional rows for `c` today, skip the
commodity if there are none (`continue`), otherwise upsert a NATIONAL row
holding the rounded mean, with the unit of the first regional row. -/
def nationalStep (today : Nat) (recs : List CommodityRecord) (c : CommodityType) :
    List CommodityRecord :=
  match activeRegionals c today recs with
  | [] => recs
  | first :: _ =>
    let prices := (activeRegionals c today recs).map (·.price)
    upsertRecord recs c Province.NASIONAL (natAvg prices) first.unit today

/-- `calculateNationalAverages` (lines 488-544), acting on the record table:
fold the per-commodity step over every canonical commodity. -/
def calculateNationalAverages (today : Nat) (recs : List CommodityRecord) :
    List CommodityRecord :=
  allCommodities.foldl (nationalStep today) recs

/-- A raw table row extracted by `page.evaluate` in `scrapeViaPuppeteer`
(lines 242-265); the textual price cell is modelled post-`parsePrice`. -/
structure RawRow where
  commodity : String
  province : String
  price : Nat
  unit : String
deriving DecidableEq

/-- The outcome environment of one `scrapeViaPuppeteer` execution: whether
`puppeteer.launch` succeeds, whether `page.goto` succeeds within its timeout,
whether `page.waitForSelector` finds the content marker in time, and the rows
`page.evaluate` extracts from the rendered DOM. -/
structure PupWorld where
  launchOk : Bool
  gotoOk : Bool
  waitOk : Bool
  rows : List RawRow
deriving DecidableEq

/-- A browser resource event observed during `scrapeViaPuppeteer`. -/
inductive PupEvent where
  | launch
  | close
deriving DecidableEq

/-- The row-processing loop at lines 268-281: keep the rows whose commodity
and province labels both map, as `ScrapedPrice`s dated `today`. -/
def processPupRows (today : Nat) (rows : List RawRow) : List ScrapedPrice :=
  rows.foldl (fun results item =>
    match mapCommodity item.commodity, mapProvince item.province with
    | some _, some _ =>
      results ++ [⟨item.commodity, item.province, item.price, item.unit, today⟩]
    | _, _ => results) []

/-- `scrapeViaPuppeteer` (lines 213-294) with its browser-resource trace.
`browser` starts unassigned; the `finally` block closes it whenever it was
launched, on the success path and on every throwing path (`goto` timeout,
missing selector, and the success return all pass through `finally`). The
second component lists the resource events in order. -/
def scrapeViaPuppeteer (today : Nat) (w : PupWorld) :
    Except String (List ScrapedPrice) × List PupEvent :=
  if !w.launchOk then
    (.error "launch failed", [])
  else if !w.gotoOk then
    (.error "navigation timeout", [.launch, .close])
  else if !w.waitOk then
    (.error "selector timeout", [.launch, .close])
  else
    (.ok (processPupRows today w.rows), [.launch, .close])

/-- The `SubscriptionStatus` Prisma enum. -/
inductive SubscriptionStatus where
  | FREE
  | PREMIUM
  | EXPIRED
deriving DecidableEq

/-- A `UserSubscription` row, restricted to the fields the middleware reads:
its status and its end date (a timestamp, modelled as `Int`). -/
structure UserSubscription where
  status : SubscriptionStatus
  endDate : Int
deriving DecidableEq

/-- A `User` row with its subscriptions, as fetched by the middleware. -/
structure User where
  status : SubscriptionStatus
  subscriptions : List UserSubscription
deriving DecidableEq

/-- The subscription filter in `checkPremium` (lines 58-69):
`status = PREMIUM ∧ endDate ≥ now` (unexpired premium subscriptions). -/
def unexpiredPremiumSubs (now : Int) (subs : List UserSubscription) :
    List UserSubscription :=
  subs.filter (fun s => s.status == SubscriptionStatus.PREMIUM && now ≤ s.endDate)

/-- The subscription filter in `checkSubscriptionExpiry` (lines 140-148):
`status = PREMIUM ∧ endDate < now` (stale premium subscriptions). -/
def expiredPremiumSubs (now : Int) (subs : List UserSubscription) :
    List UserSubscription :=
  subs.filter (fun s => s.status == SubscriptionStatus.PREMIUM && s.endDate < now)

/-- The outcome of the tier gate for an authenticated, existing user. -/
inductive GateDecision where
  | allowed
  | premiumRequired
deriving DecidableEq

/-- The core decision of `checkPremium` (lines 55-108) for an authenticated
user that exists: the user and their unexpired premium subscriptions are read
fresh from the store at request time, and access is granted when
`subscriptions.length > 0 || user.status === PREMIUM`; otherwise the 403
`PREMIUM_REQUIRED` response is sent. (The middleware fetches at most one
matching subscription via `take: 1`; only emptiness of the list matters.) -/
def checkPremium (now : Int) (user : User) : GateDecision :=
  if (unexpiredPremiumSubs now user.subscriptions).length > 0
      || user.status == SubscriptionStatus.PREMIUM then
    GateDecision.allowed
  else
    GateDecision.premiumRequired

/-- The store effect of `checkSubscriptionExpiry` (lines 127-197) on one
user: if any PREMIUM-status subscription has passed its end date, mark those
subscriptions EXPIRED; then, if no unexpired PREMIUM subscription remains,
downgrade the user's status to FREE. With no stale subscriptions the user is
left untouched. -/
def checkSubscriptionExpiry (now : Int) (user : User) : User :=
  if (expiredPremiumSubs now user.subscriptions).length > 0 then
    let subs := user.subscriptions.map (fun s =>
      if s.status == SubscriptionStatus.PREMIUM && s.endDate < now then
        { s with status := SubscriptionStatus.EXPIRED }
      else s)
    if (unexpiredPremiumSubs now subs).length = 0 then
      ⟨SubscriptionStatus.FREE, subs⟩
    else
      ⟨user.status, subs⟩
  else user

/-- The middleware chain installed on the `regional` (`/prices/live`) and
`history` (`/prices/history`) routes (`routes.ts`): `checkSubscriptionExpiry`
runs first, then `checkPremium` re-reads the reconciled user. -/
def premiumGate (now : Int) (user : User) : GateDecision :=
  checkPremium now (checkSubscriptionExpiry now user)

/-- State of one cron trigger: how many invocations of this trigger's
callback are currently in flight. -/
structure CronState where
  inFlight : Nat
deriving DecidableEq

/-- A cron tick firing the daily-scraper trigger (`startDailyPriceScraper`,
scheduler module lines 21-52): the registered async callback contains no
running-flag check or any other guard, so the tick starts the callback
unconditionally, even while a previous invocation is still in flight. -/
def dailyScraperTick (s : CronState) : CronState :=
  ⟨s.inFlight + 1⟩

/-- A cron tick firing the hourly subscription-expiry trigger
(`startSubscriptionExpiryCheck`, scheduler module lines 61-138): likewise
guardless; every tick starts a new invocation of the callback. -/
def expiryCheckTick (s : CronState) : CronState :=
  ⟨s.inFlight + 1⟩

/-- The block of history entries one `upsertPricesToDatabase` run appends:
the run's history on the empty store (the appended block is independent of
the store contents, see `run_history_eq`). -/
def runHistory (today : Nat) (uf hf : ScrapedPrice → Bool)
    (prices : List ScrapedPrice) : List PriceHistoryEntry :=
  ((upsertPricesToDatabase today uf hf prices ⟨[], []⟩).1).history

/-- Whether one observation counts as a success in `upsertPricesToDatabase`:
both labels map and neither store write throws. -/
def itemSucceeds (uf hf : ScrapedPrice → Bool) (item : ScrapedPrice) : Bool :=
  (mapCommodity item.commodity).isSome && (mapProvince item.province).isSome &&
    !uf item && !hf item

/-- The rows belonging to commodity `c`. -/
def recordsOf (c : CommodityType) (recs : List CommodityRecord) : List CommodityRecord :=
  recs.filter (fun r => r.commodity == c)

/-- The identifier string of each canonical commodity value, as declared in
the Prisma `CommodityType` enum. -/
def commodityEnumName : CommodityType → String
  | .BERAS => "BERAS"
  | .CABAI_MERAH => "CABAI_MERAH"
  | .CABAI_RAWIT => "CABAI_RAWIT"
  | .BAWANG_MERAH => "BAWANG_MERAH"
  | .BAWANG_PUTIH => "BAWANG_PUTIH"
  | .DAGING_AYAM => "DAGING_AYAM"
  | .DAGING_SAPI => "DAGING_SAPI"
  | .TELUR_AYAM => "TELUR_AYAM"
  | .MINYAK_GORENG => "MINYAK_GORENG"
  | .GULA_PASIR => "GULA_PASIR"
  | .TEPUNG_TERIGU => "TEPUNG_TERIGU"
  | .SUSU => "SUSU"
  | .TOMAT => "TOMAT"
  | .KENTANG => "KENTANG"
  | .WORTEL => "WORTEL"

/-- Second definition for the C5 refinement comparison, following the spec's
words, not the source: "exact match after case-folding and separator
normalization (underscores/spaces interchangeable)" — case-fold the label
and replace underscores by spaces. -/
def specSeparatorFold (s : String) : String :=
  ⟨s.data.map (fun ch => if ch = '_' then ' ' else ch.toLower)⟩

/-!
Theorems: helper lemmas first, then one theorem per claim (with its
witness or counterexample where applicable).
-/

theorem tripleMatches_iff (c : CommodityType) (p : Province) (d : Nat) (r : CommodityRecord) :
    tripleMatches c p d r = true ↔ r.commodity = c ∧ r.province = p ∧ r.priceDate = d := by
  simp [tripleMatches, and_assoc]

theorem tripleMatches_updRow (c : CommodityType) (p : Province) (d : Nat)
    (price : Nat) (unit : String) (r : CommodityRecord) :
    tripleMatches c p d (updRow price unit r) = tripleMatches c p d r := rfl

theorem updRow_isActive (price : Nat) (unit : String) (r : CommodityRecord) :
    (updRow price unit r).isActive = true := rfl

theorem tripleMatches_of_ne (c c' : CommodityType) (p p' : Province) (d d' : Nat)
    (r : CommodityRecord) (hne : ¬(c = c' ∧ p = p' ∧ d = d'))
    (h : tripleMatches c' p' d' r = true) : tripleMatches c p d r = false := by
  rw [tripleMatches_iff] at h
  rcases h with ⟨h1, h2, h3⟩
  by_contra hc
  rw [Bool.not_eq_false, tripleMatches_iff] at hc
  exact hne ⟨by rw [← hc.1, h1], by rw [← hc.2.1, h2], by rw [← hc.2.2, h3]⟩

theorem filter_matches_map_upd_self (c : CommodityType) (p : Province) (d : Nat)
    (price : Nat) (unit : String) (recs : List CommodityRecord) :
    (recs.map (fun r => if tripleMatches c p d r then updRow price unit r else r)).filter
        (tripleMatches c p d)
      = (recs.filter (tripleMatches c p d)).map (updRow price unit) := by
  induction recs with
  | nil => rfl
  | cons a l ih =>
    by_cases h : tripleMatches c p d a
    · simp [h, tripleMatches_updRow, ih]
    · simp [h, ih]

theorem filter_active_map_upd_self (c : CommodityType) (p : Province) (d : Nat)
    (price : Nat) (unit : String) (recs : List CommodityRecord) :
    (recs.map (fun r => if tripleMatches c p d r then updRow price unit r else r)).filter
        (fun r => tripleMatches c p d r && r.isActive)
      = (recs.filter (tripleMatches c p d)).map (updRow price unit) := by
  induction recs with
  | nil => rfl
  | cons a l ih =>
    by_cases h : tripleMatches c p d a
    · simp [h, tripleMatches_updRow, updRow_isActive, ih]
    · simp [h, ih]

theorem filter_matches_map_upd_other (c c' : CommodityType) (p p' : Province) (d d' : Nat)
    (price : Nat) (unit : String) (recs : List CommodityRecord)
    (hne : ¬(c = c' ∧ p = p' ∧ d = d')) :
    (recs.map (fun r => if tripleMatches c' p' d' r then updRow price unit r else r)).filter
        (tripleMatches c p d)
      = recs.filter (tripleMatches c p d) := by
  induction recs with
  | nil => rfl
  | cons a l ih =>
    by_cases h : tripleMatches c' p' d' a
    · have hfa : tripleMatches c p d a = false := by
        refine tripleMatches_of_ne c c' p p' d d' a hne h
      simp [h, hfa, tripleMatches_updRow, ih]
    · simp [h, List.filter_cons, ih]

theorem filter_active_map_upd_other (c c' : CommodityType) (p p' : Province) (d d' : Nat)
    (price : Nat) (unit : String) (recs : List CommodityRecord)
    (hne : ¬(c = c' ∧ p = p' ∧ d = d')) :
    (recs.map (fun r => if tripleMatches c' p' d' r then updRow price unit r else r)).filter
        (fun r => tripleMatches c p d r && r.isActive)
      = recs.filter (fun r => tripleMatches c p d r && r.isActive) := by
  induction recs with
  | nil => rfl
  | cons a l ih =>
    by_cases h : tripleMatches c' p' d' a
    · have hfa : tripleMatches c p d a = false := by
        refine tripleMatches_of_ne c c' p p' d d' a hne h
      simp [h, hfa, tripleMatches_updRow, ih]
    · simp [h, List.filter_cons, ih]

theorem tripleMatches_new (c : CommodityType) (p : Province) (price : Nat)
    (unit : String) (d : Nat) :
    tripleMatches c p d ⟨c, p, price, unit, d, true⟩ = true := by
  simp [tripleMatches]

theorem matchesFor_nil_of_not_any (c : CommodityType) (p : Province) (d : Nat)
    (recs : List CommodityRecord) (h : recs.any (tripleMatches c p d) = false) :
    matchesFor c p d recs = [] := by
  rw [matchesFor, List.filter_eq_nil_iff]
  intro a ha
  have := List.any_eq_false.mp h a ha
  simpa using this

theorem activeFor_nil_of_matchesFor_nil (c : CommodityType) (p : Province) (d : Nat)
    (recs : List CommodityRecord) (h : matchesFor c p d recs = []) :
    activeFor c p d recs = [] := by
  rw [matchesFor, List.filter_eq_nil_iff] at h
  rw [activeFor, List.filter_eq_nil_iff]
  intro a ha
  simp [h a ha]

theorem activeFor_upsertRecord_self (c : CommodityType) (p : Province) (d : Nat)
    (price : Nat) (unit : String) (recs : List CommodityRecord)
    (huniq : RecordsUnique recs) :
    (activeFor c p d (upsertRecord recs c p price unit d)).length = 1 := by
  rw [upsertRecord]
  by_cases hany : recs.any (tripleMatches c p d) = true
  · rw [if_pos hany]
    rw [activeFor, filter_active_map_upd_self]
    rw [List.length_map]
    have hub := huniq c p d
    rw [matchesFor] at hub
    have ⟨x, hx, hpx⟩ := List.any_eq_true.mp hany
    have hmem : x ∈ recs.filter (tripleMatches c p d) := List.mem_filter.mpr ⟨hx, hpx⟩
    have hlb : 1 ≤ (recs.filter (tripleMatches c p d)).length :=
      List.length_pos.mpr (List.ne_nil_of_mem hmem)
    omega
  · rw [if_neg hany]
    have hm : matchesFor c p d recs = [] :=
      matchesFor_nil_of_not_any c p d recs (Bool.not_eq_true _ ▸ eq_false_of_ne_true hany)
    have ha : activeFor c p d recs = [] := activeFor_nil_of_matchesFor_nil c p d recs hm
    rw [activeFor, List.filter_append]
    rw [activeFor] at ha
    rw [ha]
    simp [tripleMatches_new]

theorem activeFor_upsertRecord_other (c c' : CommodityType) (p p' : Province) (d d' : Nat)
    (price : Nat) (unit : String) (recs : List CommodityRecord)
    (hne : ¬(c = c' ∧ p = p' ∧ d = d')) :
    activeFor c p d (upsertRecord recs c' p' price unit d') = activeFor c p d recs := by
  rw [upsertRecord]
  by_cases hany : recs.any (tripleMatches c' p' d') = true
  · rw [if_pos hany, activeFor, activeFor, filter_active_map_upd_other c c' p p' d d' _ _ _ hne]
  · rw [if_neg hany, activeFor, activeFor, List.filter_append]
    have hnew : tripleMatches c p d (⟨c', p', price, unit, d', true⟩ : CommodityRecord) = false := by
      refine tripleMatches_of_ne c c' p p' d d' _ hne (tripleMatches_new c' p' price unit d')
    simp [hnew]

theorem matchesFor_upsertRecord_other (c c' : CommodityType) (p p' : Province) (d d' : Nat)
    (price : Nat) (unit : String) (recs : List CommodityRecord)
    (hne : ¬(c = c' ∧ p = p' ∧ d = d')) :
    matchesFor c p d (upsertRecord recs c' p' price unit d') = matchesFor c p d recs := by
  rw [upsertRecord]
  by_cases hany : recs.any (tripleMatches c' p' d') = true
  · rw [if_pos hany, matchesFor, matchesFor, filter_matches_map_upd_other c c' p p' d d' _ _ _ hne]
  · rw [if_neg hany, matchesFor, matchesFor, List.filter_append]
    have hnew : tripleMatches c p d (⟨c', p', price, unit, d', true⟩ : CommodityRecord) = false := by
      refine tripleMatches_of_ne c c' p p' d d' _ hne (tripleMatches_new c' p' price unit d')
    simp [hnew]

theorem recordsUnique_upsertRecord (c : CommodityType) (p : Province) (d : Nat)
    (price : Nat) (unit : String) (recs : List CommodityRecord)
    (huniq : RecordsUnique recs) :
    RecordsUnique (upsertRecord recs c p price unit d) := by
  intro c' p' d'
  by_cases heq : c' = c ∧ p' = p ∧ d' = d
  · rcases heq with ⟨h1, h2, h3⟩
    subst h1; subst h2; subst h3
    rw [upsertRecord]
    by_cases hany : recs.any (tripleMatches c' p' d') = true
    · rw [if_pos hany, matchesFor, filter_matches_map_upd_self, List.length_map]
      have := huniq c' p' d'
      rw [matchesFor] at this
      exact this
    · rw [if_neg hany, matchesFor, List.filter_append]
      have hm : matchesFor c' p' d' recs = [] :=
        matchesFor_nil_of_not_any c' p' d' recs (Bool.not_eq_true _ ▸ eq_false_of_ne_true hany)
      rw [matchesFor] at hm
      rw [hm]
      simp [tripleMatches_new]
  · rw [matchesFor_upsertRecord_other c' c p' p d' d price unit recs heq]
    exact huniq c' p' d'

theorem matchesFor_upsertRecord_values (c : CommodityType) (p : Province) (d : Nat)
    (price : Nat) (unit : String) (recs : List CommodityRecord) :
    matchesFor c p d (upsertRecord recs c p price unit d) ≠ [] ∧
      ∀ r ∈ matchesFor c p d (upsertRecord recs c p price unit d),
        r.price = price ∧ r.isActive = true := by
  rw [upsertRecord]
  by_cases hany : recs.any (tripleMatches c p d) = true
  · rw [if_pos hany, matchesFor, filter_matches_map_upd_self]
    have ⟨x, hx, hpx⟩ := List.any_eq_true.mp hany
    have hmem : x ∈ recs.filter (tripleMatches c p d) := List.mem_filter.mpr ⟨hx, hpx⟩
    constructor
    · intro hnil
      rw [List.map_eq_nil_iff] at hnil
      rw [hnil] at hmem
      exact absurd hmem (List.not_mem_nil x)
    · intro r hr
      have ⟨y, _, hy⟩ := List.mem_map.mp hr
      rw [← hy]
      exact ⟨rfl, rfl⟩
  · rw [if_neg hany, matchesFor, List.filter_append]
    have hm : matchesFor c p d recs = [] :=
      matchesFor_nil_of_not_any c p d recs (Bool.not_eq_true _ ▸ eq_false_of_ne_true hany)
    rw [matchesFor] at hm
    rw [hm]
    simp [tripleMatches_new]

theorem run_cons_db (today : Nat) (uf hf : ScrapedPrice → Bool) (item : ScrapedPrice)
    (rest : List ScrapedPrice) (db : DB) :
    (upsertPricesToDatabase today uf hf (item :: rest) db).1 =
      (upsertPricesToDatabase today uf hf rest (upsertStep today uf hf item db).1).1 := by
  simp only [upsertPricesToDatabase]
  by_cases h : (upsertStep today uf hf item db).2 = true <;> simp [h]

theorem upsertStep_records (today : Nat) (uf hf : ScrapedPrice → Bool)
    (item : ScrapedPrice) (db : DB) :
    (upsertStep today uf hf item db).1.records = db.records ∨
    ∃ c p, mapCommodity item.commodity = some c ∧ mapProvince item.province = some p ∧
      (upsertStep today uf hf item db).1.records
        = upsertRecord db.records c p item.price item.unit today := by
  cases hc : mapCommodity item.commodity with
  | none => left; simp [upsertStep, hc]
  | some c =>
    cases hp : mapProvince item.province with
    | none => left; simp [upsertStep, hc, hp]
    | some p =>
      by_cases hu : uf item = true
      · left; simp [upsertStep, hc, hp, hu]
      · right
        refine ⟨c, p, rfl, rfl, ?_⟩
        by_cases hh : hf item = true <;>
          simp [upsertStep, hc, hp, hu, hh]

theorem recordsUnique_upsertStep (today : Nat) (uf hf : ScrapedPrice → Bool)
    (item : ScrapedPrice) (db : DB) (huniq : RecordsUnique db.records) :
    RecordsUnique (upsertStep today uf hf item db).1.records := by
  rcases upsertStep_records today uf hf item db with h | ⟨c, p, _, _, h⟩
  · rw [h]; exact huniq
  · rw [h]; exact recordsUnique_upsertRecord c p today item.price item.unit db.records huniq

theorem recordsUnique_run (today : Nat) (uf hf : ScrapedPrice → Bool) :
    ∀ (prices : List ScrapedPrice) (db : DB), RecordsUnique db.records →
      RecordsUnique ((upsertPricesToDatabase today uf hf prices db).1).records
  | [], _, huniq => huniq
  | item :: rest, db, huniq => by
    rw [run_cons_db]
    exact recordsUnique_run today uf hf rest _
      (recordsUnique_upsertStep today uf hf item db huniq)

theorem activeFor_upsertStep_stable (today : Nat) (uf hf : ScrapedPrice → Bool)
    (c : CommodityType) (p : Province) (d : Nat) (item : ScrapedPrice) (db : DB)
    (huniq : RecordsUnique db.records)
    (hone : (activeFor c p d db.records).length = 1) :
    (activeFor c p d (upsertStep today uf hf item db).1.records).length = 1 := by
  rcases upsertStep_records today uf hf item db with h | ⟨c₀, p₀, _, _, h⟩
  · rw [h]; exact hone
  · rw [h]
    by_cases heq : c = c₀ ∧ p = p₀ ∧ d = today
    · rcases heq with ⟨h1, h2, h3⟩
      subst h1; subst h2; subst h3
      exact activeFor_upsertRecord_self c p d item.price item.unit db.records huniq
    · rw [activeFor_upsertRecord_other c c₀ p p₀ d today item.price item.unit db.records heq]
      exact hone

theorem activeFor_run_stable (today : Nat) (uf hf : ScrapedPrice → Bool)
    (c : CommodityType) (p : Province) (d : Nat) :
    ∀ (prices : List ScrapedPrice) (db : DB), RecordsUnique db.records →
      (activeFor c p d db.records).length = 1 →
      (activeFor c p d ((upsertPricesToDatabase today uf hf prices db).1).records).length = 1
  | [], _, _, hone => hone
  | item :: rest, db, huniq, hone => by
    rw [run_cons_db]
    exact activeFor_run_stable today uf hf c p d rest _
      (recordsUnique_upsertStep today uf hf item db huniq)
      (activeFor_upsertStep_stable today uf hf c p d item db huniq hone)

theorem upsertStep_ok_records (today : Nat) (item : ScrapedPrice) (db : DB)
    (c : CommodityType) (p : Province)
    (hc : mapCommodity item.commodity = some c) (hp : mapProvince item.province = some p) :
    (upsertStep today (fun _ => false) (fun _ => false) item db).1
      = ⟨upsertRecord db.records c p item.price item.unit today,
         db.history ++ [⟨c, p, item.price, today⟩]⟩ := by
  simp [upsertStep, hc, hp]

theorem activeFor_runOk_establish (today : Nat) :
    ∀ (prices : List ScrapedPrice) (db : DB), RecordsUnique db.records →
      ∀ item ∈ prices, ∀ c p, mapCommodity item.commodity = some c →
        mapProvince item.province = some p →
        (activeFor c p today ((upsertPricesOk today prices db).1).records).length = 1
  | [], _, _, item, hmem, _, _, _, _ => absurd hmem (List.not_mem_nil item)
  | a :: rest, db, huniq, item, hmem, c, p, hc, hp => by
    rw [upsertPricesOk, run_cons_db]
    rcases List.mem_cons.mp hmem with heq | hrest
    · subst heq
      refine activeFor_run_stable today _ _ c p today rest _
        (recordsUnique_upsertStep today _ _ item db huniq) ?_
      rw [upsertStep_ok_records today item db c p hc hp]
      exact activeFor_upsertRecord_self c p today item.price item.unit db.records huniq
    · exact activeFor_runOk_establish today rest _
        (recordsUnique_upsertStep today _ _ a db huniq) item hrest c p hc hp

theorem run_history_eq (today : Nat) (uf hf : ScrapedPrice → Bool) :
    ∀ (prices : List ScrapedPrice) (recs : List CommodityRecord)
      (h : List PriceHistoryEntry),
      ((upsertPricesToDatabase today uf hf prices ⟨recs, h⟩).1).history =
        h ++ runHistory today uf hf prices
  | [], recs, h => by simp [upsertPricesToDatabase, runHistory]
  | item :: rest, recs, h => by
    have hre := run_history_eq today uf hf rest
    rw [run_cons_db, runHistory, run_cons_db]
    cases hc : mapCommodity item.commodity with
    | none => simp only [upsertStep, hc]; simp [hre]
    | some c =>
      cases hp : mapProvince item.province with
      | none => simp only [upsertStep, hc, hp]; simp [hre]
      | some p =>
        by_cases hu : uf item = true
        · simp only [upsertStep, hc, hp, hu, if_true]; simp [hre]
        · by_cases hh : hf item = true
          · simp only [upsertStep, hc, hp, hu, hh]
            simp only [Bool.false_eq_true, if_false, if_true]
            simp [hre]
          · simp only [upsertStep, hc, hp, hu, hh]
            simp only [Bool.false_eq_true, if_false]
            simp [hre]

theorem runHistory_length (today : Nat) :
    ∀ (prices : List ScrapedPrice),
      (∀ item ∈ prices, (mapCommodity item.commodity).isSome ∧
        (mapProvince item.province).isSome) →
      (runHistory today (fun _ => false) (fun _ => false) prices).length = prices.length
  | [], _ => rfl
  | item :: rest, hmap => by
    have ⟨hcs, hps⟩ := hmap item (List.mem_cons_self item rest)
    rcases Option.isSome_iff_exists.mp hcs with ⟨c, hc⟩
    rcases Option.isSome_iff_exists.mp hps with ⟨p, hp⟩
    have hrest : ∀ i ∈ rest, (mapCommodity i.commodity).isSome ∧ (mapProvince i.province).isSome :=
      fun i hi => hmap i (List.mem_cons_of_mem item hi)
    have ih := runHistory_length today rest hrest
    rw [runHistory, run_cons_db,
        upsertStep_ok_records today item ⟨[], []⟩ c p hc hp]
    rw [run_history_eq today (fun _ => false) (fun _ => false) rest
        (upsertRecord [] c p item.price item.unit today)]
    simp [ih]

theorem commodity_eq_of_tripleMatches (c : CommodityType) (p : Province) (d : Nat)
    (r : CommodityRecord) (h : tripleMatches c p d r = true) : r.commodity = c :=
  ((tripleMatches_iff c p d r).mp h).1

theorem province_eq_of_tripleMatches (c : CommodityType) (p : Province) (d : Nat)
    (r : CommodityRecord) (h : tripleMatches c p d r = true) : r.province = p :=
  ((tripleMatches_iff c p d r).mp h).2.1

theorem recordsOf_map_upd (c c' : CommodityType) (p' : Province) (d' : Nat)
    (price : Nat) (unit : String) (recs : List CommodityRecord) (hne : c ≠ c') :
    recordsOf c (recs.map (fun r => if tripleMatches c' p' d' r then updRow price unit r else r))
      = recordsOf c recs := by
  rw [recordsOf, recordsOf]
  induction recs with
  | nil => rfl
  | cons a l ih =>
    by_cases h : tripleMatches c' p' d' a
    · have hac : a.commodity = c' := commodity_eq_of_tripleMatches c' p' d' a h
      have hfa : (a.commodity == c) = false := by
        simp [hac]
        exact fun hcc => hne hcc.symm
      have hfu : ((updRow price unit a).commodity == c) = false := hfa
      simp [h, List.filter_cons, hfa, hfu, ih]
    · simp [h, List.filter_cons, ih]

theorem recordsOf_nationalStep_other (today : Nat) (recs : List CommodityRecord)
    (c c' : CommodityType) (hne : c ≠ c') :
    recordsOf c (nationalStep today recs c') = recordsOf c recs := by
  rw [nationalStep]
  cases hreg : activeRegionals c' today recs with
  | nil => rfl
  | cons first rest =>
    simp only [upsertRecord]
    by_cases hany : recs.any (tripleMatches c' Province.NASIONAL today) = true
    · rw [if_pos hany]
      exact recordsOf_map_upd c c' Province.NASIONAL today _ _ recs hne
    · rw [if_neg hany, recordsOf, recordsOf, List.filter_append]
      have hcc : (c' == c) = false := by
        simp
        exact fun hcc => hne hcc.symm
      simp [hcc]

theorem activeRegionals_map_upd (c c' : CommodityType) (today : Nat)
    (price : Nat) (unit : String) (recs : List CommodityRecord) :
    activeRegionals c today
        (recs.map (fun r =>
          if tripleMatches c' Province.NASIONAL today r then updRow price unit r else r))
      = activeRegionals c today recs := by
  rw [activeRegionals, activeRegionals]
  induction recs with
  | nil => rfl
  | cons a l ih =>
    by_cases h : tripleMatches c' Province.NASIONAL today a
    · have hap : a.province = Province.NASIONAL :=
        province_eq_of_tripleMatches c' Province.NASIONAL today a h
      have hfa : (a.commodity == c && a.priceDate == today && a.isActive
          && !(a.province == Province.NASIONAL)) = false := by
        simp [hap]
      have hfu : ((updRow price unit a).commodity == c
          && (updRow price unit a).priceDate == today && (updRow price unit a).isActive
          && !((updRow price unit a).province == Province.NASIONAL)) = false := by
        simp [updRow, hap]
      simp [h, List.filter_cons, hfa, hfu, ih]
    · simp [h, List.filter_cons, ih]

theorem activeRegionals_nationalStep (today : Nat) (recs : List CommodityRecord)
    (c c' : CommodityType) :
    activeRegionals c today (nationalStep today recs c') = activeRegionals c today recs := by
  rw [nationalStep]
  cases hreg : activeRegionals c' today recs with
  | nil => rfl
  | cons first rest =>
    simp only [upsertRecord]
    by_cases hany : recs.any (tripleMatches c' Province.NASIONAL today) = true
    · rw [if_pos hany]
      exact activeRegionals_map_upd c c' today _ _ recs
    · rw [if_neg hany, activeRegionals, activeRegionals, List.filter_append]
      simp

theorem matchesFor_nationalStep_other (today : Nat) (recs : List CommodityRecord)
    (c c' : CommodityType) (hne : c ≠ c') :
    matchesFor c Province.NASIONAL today (nationalStep today recs c')
      = matchesFor c Province.NASIONAL today recs := by
  rw [nationalStep]
  cases hreg : activeRegionals c' today recs with
  | nil => rfl
  | cons first rest =>
    exact matchesFor_upsertRecord_other c c' Province.NASIONAL Province.NASIONAL today today
      _ first.unit recs (fun hcon => hne hcon.1)

theorem recordsOf_fold_not_mem (today : Nat) (c : CommodityType) :
    ∀ (cs : List CommodityType) (recs : List CommodityRecord), c ∉ cs →
      recordsOf c (cs.foldl (nationalStep today) recs) = recordsOf c recs
  | [], _, _ => rfl
  | c₀ :: cs', recs, hmem => by
    have hne : c ≠ c₀ := fun h => hmem (h ▸ List.mem_cons_self c₀ cs')
    have hmem' : c ∉ cs' := fun h => hmem (List.mem_cons_of_mem c₀ h)
    rw [List.foldl_cons, recordsOf_fold_not_mem today c cs' _ hmem',
        recordsOf_nationalStep_other today recs c c₀ hne]

theorem matchesFor_fold_not_mem (today : Nat) (c : CommodityType) :
    ∀ (cs : List CommodityType) (recs : List CommodityRecord), c ∉ cs →
      matchesFor c Province.NASIONAL today (cs.foldl (nationalStep today) recs)
        = matchesFor c Province.NASIONAL today recs
  | [], _, _ => rfl
  | c₀ :: cs', recs, hmem => by
    have hne : c ≠ c₀ := fun h => hmem (h ▸ List.mem_cons_self c₀ cs')
    have hmem' : c ∉ cs' := fun h => hmem (List.mem_cons_of_mem c₀ h)
    rw [List.foldl_cons, matchesFor_fold_not_mem today c cs' _ hmem',
        matchesFor_nationalStep_other today recs c c₀ hne]

theorem fold_nationalStep_spec (today : Nat) (c : CommodityType) :
    ∀ (cs : List CommodityType) (recs : List CommodityRecord), c ∈ cs → cs.Nodup →
      (activeRegionals c today recs = [] →
        recordsOf c (cs.foldl (nationalStep today) recs) = recordsOf c recs) ∧
      (activeRegionals c today recs ≠ [] →
        matchesFor c Province.NASIONAL today (cs.foldl (nationalStep today) recs) ≠ [] ∧
        ∀ r ∈ matchesFor c Province.NASIONAL today (cs.foldl (nationalStep today) recs),
          r.price = natAvg ((activeRegionals c today recs).map (·.price)) ∧
          r.isActive = true)
  | [], _, hmem, _ => absurd hmem (List.not_mem_nil c)
  | c₀ :: cs', recs, hmem, hnodup => by
    rw [List.foldl_cons]
    by_cases hc₀ : c = c₀
    · subst hc₀
      have hnotmem : c ∉ cs' := (List.nodup_cons.mp hnodup).1
      constructor
      · intro hempty
        have hstep : nationalStep today recs c = recs := by
          rw [nationalStep, hempty]
        rw [hstep, recordsOf_fold_not_mem today c cs' recs hnotmem]
      · intro hne
        cases hreg : activeRegionals c today recs with
        | nil => exact absurd hreg hne
        | cons first rest =>
          have hstep : nationalStep today recs c =
              upsertRecord recs c Province.NASIONAL
                (natAvg ((first :: rest).map (·.price))) first.unit today := by
            rw [nationalStep, hreg]
          rw [hstep, matchesFor_fold_not_mem today c cs' _ hnotmem]
          exact matchesFor_upsertRecord_values c Province.NASIONAL today
            (natAvg ((first :: rest).map (·.price))) first.unit recs
    · have hmem' : c ∈ cs' := by
        rcases List.mem_cons.mp hmem with h | h
        · exact absurd h hc₀
        · exact h
      have hnodup' : cs'.Nodup := (List.nodup_cons.mp hnodup).2
      have ih := fold_nationalStep_spec today c cs' (nationalStep today recs c₀) hmem' hnodup'
      rw [activeRegionals_nationalStep today recs c c₀] at ih
      constructor
      · intro hempty
        rw [ih.1 hempty, recordsOf_nationalStep_other today recs c c₀ hc₀]
      · intro hne
        exact ih.2 hne

theorem upsertStep_ok_iff (today : Nat) (uf hf : ScrapedPrice → Bool)
    (item : ScrapedPrice) (db : DB) :
    (upsertStep today uf hf item db).2 = itemSucceeds uf hf item := by
  cases hc : mapCommodity item.commodity <;> cases hp : mapProvince item.province <;>
    by_cases hu : uf item = true <;> by_cases hh : hf item = true <;>
      simp [upsertStep, itemSucceeds, hc, hp, hu, hh]

/-- C1: running the ingestion upsert twice with the same scraped data and the
same date leaves the uniqueness invariant intact and exactly one active
`CommodityRecord` at each observation's `(commodity, province, priceDate)`
triple — the second run overwrites rather than duplicates — while each run
appends the same one-entry-per-observation block to the price history, so the
double run adds exactly two history rows per observation. -/
theorem upsert_twice_one_active_record_two_history_rows
    (today : Nat) (prices : List ScrapedPrice) (db : DB)
    (huniq : RecordsUnique db.records)
    (hmap : ∀ item ∈ prices, (mapCommodity item.commodity).isSome ∧
      (mapProvince item.province).isSome) :
    RecordsUnique ((upsertPricesOk today prices ((upsertPricesOk today prices db).1)).1).records ∧
    (∀ item ∈ prices, ∀ c p, mapCommodity item.commodity = some c →
      mapProvince item.province = some p →
      (activeFor c p today
        ((upsertPricesOk today prices ((upsertPricesOk today prices db).1)).1).records).length
        = 1) ∧
    ((upsertPricesOk today prices db).1).history
      = db.history ++ runHistory today (fun _ => false) (fun _ => false) prices ∧
    ((upsertPricesOk today prices ((upsertPricesOk today prices db).1)).1).history
      = db.history ++ runHistory today (fun _ => false) (fun _ => false) prices
          ++ runHistory today (fun _ => false) (fun _ => false) prices ∧
    (runHistory today (fun _ => false) (fun _ => false) prices).length = prices.length := by
  have h1u : RecordsUnique ((upsertPricesOk today prices db).1).records :=
    recordsUnique_run today _ _ prices db huniq
  have h2u : RecordsUnique
      ((upsertPricesOk today prices ((upsertPricesOk today prices db).1)).1).records :=
    recordsUnique_run today _ _ prices _ h1u
  have e1 : ((upsertPricesOk today prices db).1).history
      = db.history ++ runHistory today (fun _ => false) (fun _ => false) prices :=
    run_history_eq today (fun _ => false) (fun _ => false) prices db.records db.history
  have e2 : ((upsertPricesOk today prices ((upsertPricesOk today prices db).1)).1).history
      = ((upsertPricesOk today prices db).1).history
          ++ runHistory today (fun _ => false) (fun _ => false) prices :=
    run_history_eq today (fun _ => false) (fun _ => false) prices
      ((upsertPricesOk today prices db).1).records
      ((upsertPricesOk today prices db).1).history
  refine ⟨h2u, ?_, e1, ?_, runHistory_length today prices hmap⟩
  · intro item hmem c p hc hp
    exact activeFor_runOk_establish today prices _ h1u item hmem c p hc hp
  · rw [e2, e1, List.append_assoc]

/-- Witness for C1 at a concrete input: one "beras"/"aceh" observation, run
twice from the empty store, ends with exactly one active BERAS/ACEH record
and two history rows. -/
theorem upsert_twice_one_active_record_two_history_rows_witness :
    (activeFor CommodityType.BERAS Province.ACEH 7
      ((upsertPricesOk 7 [⟨"beras", "aceh", 100, "kg", 7⟩]
        ((upsertPricesOk 7 [⟨"beras", "aceh", 100, "kg", 7⟩] ⟨[], []⟩).1)).1).records).length
      = 1 ∧
    ((upsertPricesOk 7 [⟨"beras", "aceh", 100, "kg", 7⟩]
      ((upsertPricesOk 7 [⟨"beras", "aceh", 100, "kg", 7⟩] ⟨[], []⟩).1)).1).history.length
      = 2 := by
  have huniq : RecordsUnique (DB.mk [] []).records := by
    intro c p d
    simp [matchesFor]
  have hmap : ∀ item ∈ [(⟨"beras", "aceh", 100, "kg", 7⟩ : ScrapedPrice)],
      (mapCommodity item.commodity).isSome ∧ (mapProvince item.province).isSome := by
    decide
  have T := upsert_twice_one_active_record_two_history_rows 7
    [⟨"beras", "aceh", 100, "kg", 7⟩] ⟨[], []⟩ huniq hmap
  constructor
  · exact T.2.1 ⟨"beras", "aceh", 100, "kg", 7⟩ (List.mem_singleton.mpr rfl)
      CommodityType.BERAS Province.ACEH (by decide) (by decide)
  · rw [T.2.2.2.1]
    simp [T.2.2.2.2]

/-- C3: `calculateNationalAverages` creates or updates a NATIONAL-region
record for a commodity exactly when at least one active non-NATIONAL record
exists for that commodity today; when such records exist the NATIONAL price
is the arithmetic mean of their prices rounded to the nearest integer, and
when none exist the commodity's rows are left entirely untouched. -/
theorem national_average_iff_regionals (today : Nat) (recs : List CommodityRecord)
    (c : CommodityType) :
    (activeRegionals c today recs = [] →
      recordsOf c (calculateNationalAverages today recs) = recordsOf c recs) ∧
    (activeRegionals c today recs ≠ [] →
      matchesFor c Province.NASIONAL today (calculateNationalAverages today recs) ≠ [] ∧
      ∀ r ∈ matchesFor c Province.NASIONAL today (calculateNationalAverages today recs),
        r.price = natAvg ((activeRegionals c today recs).map (·.price)) ∧
        r.isActive = true) := by
  have hmem : c ∈ allCommodities := by cases c <;> simp [allCommodities]
  have hnodup : allCommodities.Nodup := by decide
  exact fold_nationalStep_spec today c allCommodities recs hmem hnodup

/-- Witness for C3 at the spec's example: regional prices 10000/12000/14000
give a NATIONAL record of 12000, and a commodity with no regional records
(SUSU) is left untouched. -/
theorem national_average_iff_regionals_witness :
    (matchesFor CommodityType.BERAS Province.NASIONAL 7
        (calculateNationalAverages 7
          [⟨CommodityType.BERAS, Province.ACEH, 10000, "kg", 7, true⟩,
           ⟨CommodityType.BERAS, Province.RIAU, 12000, "kg", 7, true⟩,
           ⟨CommodityType.BERAS, Province.JAMBI, 14000, "kg", 7, true⟩]) ≠ [] ∧
      ∀ r ∈ matchesFor CommodityType.BERAS Province.NASIONAL 7
        (calculateNationalAverages 7
          [⟨CommodityType.BERAS, Province.ACEH, 10000, "kg", 7, true⟩,
           ⟨CommodityType.BERAS, Province.RIAU, 12000, "kg", 7, true⟩,
           ⟨CommodityType.BERAS, Province.JAMBI, 14000, "kg", 7, true⟩]),
        r.price = 12000 ∧ r.isActive = true) ∧
    recordsOf CommodityType.SUSU
        (calculateNationalAverages 7
          [⟨CommodityType.BERAS, Province.ACEH, 10000, "kg", 7, true⟩,
           ⟨CommodityType.BERAS, Province.RIAU, 12000, "kg", 7, true⟩,
           ⟨CommodityType.BERAS, Province.JAMBI, 14000, "kg", 7, true⟩])
      = recordsOf CommodityType.SUSU
          [⟨CommodityType.BERAS, Province.ACEH, 10000, "kg", 7, true⟩,
           ⟨CommodityType.BERAS, Province.RIAU, 12000, "kg", 7, true⟩,
           ⟨CommodityType.BERAS, Province.JAMBI, 14000, "kg", 7, true⟩] := by
  constructor
  · have T := national_average_iff_regionals 7
      [⟨CommodityType.BERAS, Province.ACEH, 10000, "kg", 7, true⟩,
       ⟨CommodityType.BERAS, Province.RIAU, 12000, "kg", 7, true⟩,
       ⟨CommodityType.BERAS, Province.JAMBI, 14000, "kg", 7, true⟩] CommodityType.BERAS
    have ⟨hne, hall⟩ := T.2 (by decide)
    refine ⟨hne, fun r hr => ?_⟩
    have := hall r hr
    rw [show natAvg ((activeRegionals CommodityType.BERAS 7
      [⟨CommodityType.BERAS, Province.ACEH, 10000, "kg", 7, true⟩,
       ⟨CommodityType.BERAS, Province.RIAU, 12000, "kg", 7, true⟩,
       ⟨CommodityType.BERAS, Province.JAMBI, 14000, "kg", 7, true⟩]).map (·.price)) = 12000
      from by decide] at this
    exact this
  · have T := national_average_iff_regionals 7
      [⟨CommodityType.BERAS, Province.ACEH, 10000, "kg", 7, true⟩,
       ⟨CommodityType.BERAS, Province.RIAU, 12000, "kg", 7, true⟩,
       ⟨CommodityType.BERAS, Province.JAMBI, 14000, "kg", 7, true⟩] CommodityType.SUSU
    exact T.1 (by decide)

/-- C10 (amended view is not needed — stated as claimed): every observation is
accounted exactly once: successCount plus errorCount equals the input length,
and the error count is exactly the number of observations that fail — an
unmappable commodity or province label (`itemSucceeds` requires both lookups
to return `some`) or a throwing store write. The function is total: a
per-observation failure is absorbed, never re-raised. -/
theorem upsert_accounts_each_observation (today : Nat) (uf hf : ScrapedPrice → Bool) :
    ∀ (prices : List ScrapedPrice) (db : DB),
      (upsertPricesToDatabase today uf hf prices db).2.1 +
          (upsertPricesToDatabase today uf hf prices db).2.2 = prices.length ∧
      (upsertPricesToDatabase today uf hf prices db).2.2 =
        (prices.filter (fun item => !(itemSucceeds uf hf item))).length
  | [], db => by simp [upsertPricesToDatabase]
  | item :: rest, db => by
    have ih := upsert_accounts_each_observation today uf hf rest
      (upsertStep today uf hf item db).1
    have hok := upsertStep_ok_iff today uf hf item db
    obtain ⟨ih1, ih2⟩ := ih
    simp only [upsertPricesToDatabase]
    by_cases h : (upsertStep today uf hf item db).2 = true
    · have his : itemSucceeds uf hf item = true := by rw [← hok]; exact h
      constructor
      · simp only [if_pos h, List.length_cons]
        omega
      · simp [if_pos h, List.filter_cons, his, ih2]
    · have his : itemSucceeds uf hf item = false := by
        rw [← hok]
        exact Bool.not_eq_true _ ▸ eq_false_of_ne_true h
      constructor
      · simp only [if_neg h, List.length_cons]
        omega
      · simp [if_neg h, List.filter_cons, his, ih2]

/-- Counterexample to C7: when the `commodityPrice.upsert` call throws for an
observation, the `priceHistory.create` append for that observation is never
attempted — the run below uses a store in which the upsert always throws and
the history append always succeeds, yet the history stays empty (the second
run, identical but with a working upsert, shows the append itself works). -/
theorem upsert_failure_skips_history_append_counterexample :
    upsertPricesToDatabase 7 (fun _ => true) (fun _ => false)
        [⟨"beras", "aceh", 100, "kg", 7⟩] ⟨[], []⟩
      = (⟨[], []⟩, 0, 1) ∧
    ((upsertPricesToDatabase 7 (fun _ => false) (fun _ => false)
        [⟨"beras", "aceh", 100, "kg", 7⟩] ⟨[], []⟩).1).history.length = 1 := by
  constructor <;> decide

/-- C7 amended: a store failure on one observation never aborts the batch —
the remaining observations are processed exactly as if the failing one had
only contributed an error count — but when the upsert for an observation
throws, the store is left untouched for that observation, so its history
append is skipped rather than attempted. -/
theorem upsert_continue_on_error (today : Nat) (uf hf : ScrapedPrice → Bool)
    (item : ScrapedPrice) (rest : List ScrapedPrice) (db : DB)
    (c : CommodityType) (p : Province)
    (hc : mapCommodity item.commodity = some c)
    (hp : mapProvince item.province = some p)
    (hu : uf item = true) :
    (upsertStep today uf hf item db).1 = db ∧
    upsertPricesToDatabase today uf hf (item :: rest) db =
      ((upsertPricesToDatabase today uf hf rest db).1,
       (upsertPricesToDatabase today uf hf rest db).2.1,
       (upsertPricesToDatabase today uf hf rest db).2.2 + 1) := by
  have hstep : upsertStep today uf hf item db = (db, false) := by
    simp [upsertStep, hc, hp, hu]
  constructor
  · rw [hstep]
  · simp [upsertPricesToDatabase, hstep]

/-- Witness for C7's amended claim at a concrete input. -/
theorem upsert_continue_on_error_witness :
    (upsertStep 7 (fun _ => true) (fun _ => false)
        ⟨"beras", "aceh", 100, "kg", 7⟩ ⟨[], []⟩).1 = ⟨[], []⟩ ∧
    upsertPricesToDatabase 7 (fun _ => true) (fun _ => false)
        [⟨"beras", "aceh", 100, "kg", 7⟩, ⟨"susu", "bali", 5, "liter", 7⟩] ⟨[], []⟩ =
      ((upsertPricesToDatabase 7 (fun _ => true) (fun _ => false)
          [⟨"susu", "bali", 5, "liter", 7⟩] ⟨[], []⟩).1,
       (upsertPricesToDatabase 7 (fun _ => true) (fun _ => false)
          [⟨"susu", "bali", 5, "liter", 7⟩] ⟨[], []⟩).2.1,
       (upsertPricesToDatabase 7 (fun _ => true) (fun _ => false)
          [⟨"susu", "bali", 5, "liter", 7⟩] ⟨[], []⟩).2.2 + 1) :=
  upsert_continue_on_error 7 (fun _ => true) (fun _ => false)
    ⟨"beras", "aceh", 100, "kg", 7⟩ [⟨"susu", "bali", 5, "liter", 7⟩] ⟨[], []⟩
    CommodityType.BERAS Province.ACEH (by decide) (by decide) rfl

theorem scrapeWithRetry_allfail (es : Nat → String) :
    scrapeWithRetry (fun n => (Except.error (es n) : Except String (List ScrapedPrice))) 3
      = ⟨Except.error (es 3), 3, [2000, 4000]⟩ := by
  show RetryTrace.mk _ _ _ = _
  rfl

/-- Counterexample to C4: the inter-attempt delays of a permanently failing
operation under the default `maxRetries = 3` are 2000 ms and 4000 ms — the
delay after failed attempt `n` is `min(1000 · 2^n, 30000)` with `n` starting
at 1 — not the approximately 1 s and 2 s the claim derives from its formula. -/
theorem retry_delays_counterexample :
    (scrapeWithRetry (fun _ => (Except.error "fetch failed" : Except String (List ScrapedPrice)))
        3).delays = [2000, 4000] ∧
    [2000, 4000] ≠ [1000, 2000] := by
  constructor <;> decide

/-- C4 amended: with `maxRetries = 3`, a permanently failing operation is
invoked exactly 3 times, the wait between attempt `n` and `n + 1` is
`min(30000 ms, 1000 ms · 2^n)` — concretely 2 s then 4 s — and after the
final failed attempt the last underlying error is re-raised. -/
theorem retry_three_attempts_backoff_reraise (es : Nat → String) :
    (scrapeWithRetry (fun n => (Except.error (es n) : Except String (List ScrapedPrice))) 3).calls
        = 3 ∧
    (scrapeWithRetry (fun n => (Except.error (es n) : Except String (List ScrapedPrice))) 3).delays
        = [retryDelay 1, retryDelay 2] ∧
    [retryDelay 1, retryDelay 2] = [2000, 4000] ∧
    (scrapeWithRetry (fun n => (Except.error (es n) : Except String (List ScrapedPrice))) 3).result
        = Except.error (es 3) := by
  rw [scrapeWithRetry_allfail]
  refine ⟨rfl, ?_, by decide, rfl⟩
  show ([2000, 4000] : List Nat) = [retryDelay 1, retryDelay 2]
  decide

/-- Counterexample to C9: neither cron trigger carries a running-flag guard;
a tick that arrives while one invocation is already in flight starts a second
one instead of being skipped, for the daily scraper and the hourly expiry
check alike. -/
theorem scheduler_no_overlap_guard_counterexample :
    dailyScraperTick ⟨1⟩ ≠ ⟨1⟩ ∧ (dailyScraperTick ⟨1⟩).inFlight = 2 ∧
    expiryCheckTick ⟨1⟩ ≠ ⟨1⟩ ∧ (expiryCheckTick ⟨1⟩).inFlight = 2 := by
  refine ⟨?_, rfl, ?_, rfl⟩ <;> decide

/-- C9 amended: the registered cron callbacks contain no running-flag check:
every tick of either trigger unconditionally starts a new invocation, so an
invocation arriving while a previous invocation of the same trigger is still
running overlaps it rather than being skipped. -/
theorem scheduler_tick_always_starts (s : CronState) :
    (dailyScraperTick s).inFlight = s.inFlight + 1 ∧
    (expiryCheckTick s).inFlight = s.inFlight + 1 :=
  ⟨rfl, rfl⟩

/-- C8: on every execution path of the rendered-page adapter — launch
failure, navigation timeout, missing content selector, and success — the
browser-resource trace is balanced: the browser is closed exactly as often as
it is launched, so no path leaks the browser. -/
theorem puppeteer_browser_always_released (today : Nat) (w : PupWorld) :
    ((scrapeViaPuppeteer today w).2.count PupEvent.launch
      = (scrapeViaPuppeteer today w).2.count PupEvent.close) ∧
    ((scrapeViaPuppeteer today w).2 = [] ∨
      (scrapeViaPuppeteer today w).2 = [PupEvent.launch, PupEvent.close]) := by
  rcases w with ⟨launchOk, gotoOk, waitOk, rows⟩
  cases launchOk <;> cases gotoOk <;> cases waitOk <;>
    simp [scrapeViaPuppeteer]

theorem lookup_eq_none_of_no_key (l : List (String × CommodityType)) (k : String)
    (h : l.all (fun kv => !(k == kv.1)) = true) : l.lookup k = none := by
  induction l with
  | nil => rfl
  | cons a t ih =>
    rw [List.all_cons, Bool.and_eq_true] at h
    have h1 : (k == a.1) = false := by
      have := h.1
      simp at this
      simp [this]
    rcases a with ⟨key, v⟩
    rw [List.lookup]
    simp only at h1
    rw [h1]
    exact ih h.2

/-- Counterexample to C5: the claim's first matching rule — exact match after
case-folding with underscores and spaces interchangeable against the
canonical identifier — would map the raw label "cabai_merah" to
`CABAI_MERAH`, but the code's `mapCommodity` does only a verbatim
lowercase-and-trim dictionary lookup and returns `none` for it. -/
theorem normalize_no_separator_fold_counterexample :
    specSeparatorFold "cabai_merah"
        = specSeparatorFold (commodityEnumName CommodityType.CABAI_MERAH) ∧
    mapCommodity "cabai_merah" = none := by
  constructor <;> decide

/-- C5 amended: `mapCommodity`/`mapProvince` match by a single exact lookup
of the lowercased, trimmed raw label in the fixed synonym table — no
separator normalization against the canonical identifier and no substring
matching. Every label present in a table entry maps to its owning canonical
id, and a label whose normalization equals no table key yields `none` (not an
error). -/
theorem normalize_exact_lookup (raw : String)
    (hmiss : COMMODITY_MAP.all (fun kv => !(normalizeString raw == kv.1)) = true) :
    COMMODITY_MAP.all (fun kv => mapCommodity kv.1 == some kv.2) = true ∧
    PROVINCE_MAP.all (fun kv => mapProvince kv.1 == some kv.2) = true ∧
    mapCommodity raw = none := by
  refine ⟨by decide, by decide, ?_⟩
  exact lookup_eq_none_of_no_key COMMODITY_MAP (normalizeString raw) hmiss

/-- Witness for C5's amended claim: "harga emas" appears in no synonym entry
and normalizes to `none`. -/
theorem normalize_exact_lookup_witness :
    COMMODITY_MAP.all (fun kv => mapCommodity kv.1 == some kv.2) = true ∧
    mapCommodity "harga emas" = none := by
  have T := normalize_exact_lookup "harga emas" (by decide)
  exact ⟨T.1, T.2.2⟩

theorem unexpired_after_mark (now : Int) (subs : List UserSubscription) :
    unexpiredPremiumSubs now (subs.map (fun s =>
      if s.status == SubscriptionStatus.PREMIUM && s.endDate < now then
        { s with status := SubscriptionStatus.EXPIRED } else s))
      = unexpiredPremiumSubs now subs := by
  rw [unexpiredPremiumSubs, unexpiredPremiumSubs]
  induction subs with
  | nil => rfl
  | cons a t ih =>
    rw [List.map_cons, List.filter_cons, List.filter_cons]
    by_cases hcond : (a.status == SubscriptionStatus.PREMIUM && decide (a.endDate < now)) = true
    · have h1 : a.status = SubscriptionStatus.PREMIUM := by
        have := (Bool.and_eq_true _ _).mp hcond
        simpa using this.1
      have h2 : a.endDate < now := by
        have := (Bool.and_eq_true _ _).mp hcond
        simpa using this.2
      rw [if_pos hcond]
      have hm : (({ a with status := SubscriptionStatus.EXPIRED } :
          UserSubscription).status == SubscriptionStatus.PREMIUM
            && decide (now ≤ ({ a with status := SubscriptionStatus.EXPIRED } :
              UserSubscription).endDate)) = false := by
        simp
      have ho : (a.status == SubscriptionStatus.PREMIUM && decide (now ≤ a.endDate)) = false := by
        have : ¬(now ≤ a.endDate) := by omega
        simp [this]
      rw [hm, ho]
      simp only [Bool.false_eq_true, if_false]
      exact ih
    · rw [if_neg hcond]
      cases hpa : (a.status == SubscriptionStatus.PREMIUM && decide (now ≤ a.endDate)) with
      | false => simp only [Bool.false_eq_true, if_false]; exact ih
      | true => simp only [if_true]; rw [ih]

theorem checkPremium_allowed_iff (now : Int) (u : User) :
    checkPremium now u = GateDecision.allowed ↔
      (unexpiredPremiumSubs now u.subscriptions ≠ [] ∨
        u.status = SubscriptionStatus.PREMIUM) := by
  rw [checkPremium]
  by_cases h : ((unexpiredPremiumSubs now u.subscriptions).length > 0
      || u.status == SubscriptionStatus.PREMIUM) = true
  · rw [if_pos h]
    simp only [Bool.or_eq_true, decide_eq_true_eq, beq_iff_eq] at h
    constructor
    · intro _
      rcases h with h | h
      · exact Or.inl (List.ne_nil_of_length_pos h)
      · exact Or.inr h
    · intro _; rfl
  · rw [if_neg h]
    simp only [Bool.or_eq_true, decide_eq_true_eq, beq_iff_eq, not_or] at h
    constructor
    · intro hcon; exact absurd hcon (by simp)
    · intro hcon
      rcases hcon with hcon | hcon
      · exact absurd (List.length_pos.mpr hcon) h.1
      · exact absurd hcon h.2

/-- Counterexample to C2: a caller whose stored user status is still PREMIUM
but whose only subscription is already marked EXPIRED (end date in the past)
is granted premium access by the regional/history middleware chain, although
none of their subscriptions has an unexpired end date. -/
theorem premium_gate_stale_status_counterexample :
    premiumGate 100 ⟨SubscriptionStatus.PREMIUM, [⟨SubscriptionStatus.EXPIRED, 50⟩]⟩
      = GateDecision.allowed ∧
    ([(⟨SubscriptionStatus.EXPIRED, 50⟩ : UserSubscription)].all
      (fun s => decide (s.endDate < 100))) = true := by
  constructor <;> decide

/-- C2 amended: on the regional/history routes the entitlement is re-read and
expiry-reconciled on each request; access is granted exactly when the caller
holds an unexpired PREMIUM-status subscription, or the caller's stored status
flag is PREMIUM while no expired PREMIUM-status subscription remains to
trigger the downgrade. Hence a FREE- or EXPIRED-status caller without an
unexpired subscription gets the premium-required response and a PREMIUM
caller with a future end date succeeds; a not-yet-reconciled PREMIUM-status
subscription past its end date is expired in-line and the caller refused; but
a stale PREMIUM status flag with only EXPIRED-status (or no) subscription
rows is still served after expiry. -/
theorem premium_gate_policy (now : Int) (user : User) :
    premiumGate now user = GateDecision.allowed ↔
      (unexpiredPremiumSubs now user.subscriptions ≠ [] ∨
        (user.status = SubscriptionStatus.PREMIUM ∧
          expiredPremiumSubs now user.subscriptions = [])) := by
  rcases user with ⟨status, subs⟩
  rw [premiumGate, checkSubscriptionExpiry]
  simp only
  by_cases hexp : (expiredPremiumSubs now subs).length > 0
  · rw [if_pos hexp]
    have hexp' : expiredPremiumSubs now subs ≠ [] := List.ne_nil_of_length_pos hexp
    by_cases hact : (unexpiredPremiumSubs now (subs.map (fun s =>
        if s.status == SubscriptionStatus.PREMIUM && s.endDate < now then
          { s with status := SubscriptionStatus.EXPIRED } else s))).length = 0
    · rw [if_pos hact, checkPremium_allowed_iff]
      rw [unexpired_after_mark now subs] at hact
      have hact' : unexpiredPremiumSubs now subs = [] := List.length_eq_zero.mp hact
      simp only
      rw [unexpired_after_mark now subs]
      simp [hact', hexp']
    · rw [if_neg hact, checkPremium_allowed_iff]
      rw [unexpired_after_mark now subs] at hact
      have hact' : unexpiredPremiumSubs now subs ≠ [] := by
        intro hnil
        exact hact (by rw [hnil]; rfl)
      simp only
      rw [unexpired_after_mark now subs]
      simp [hact']
  · rw [if_neg hexp]
    rw [checkPremium_allowed_iff]
    have hexp0 : expiredPremiumSubs now subs = [] := by
      rcases hn : expiredPremiumSubs now subs with _ | ⟨a, t⟩
      · rfl
      · rw [hn] at hexp
        simp at hexp
    simp [hexp0]

/-- C6: when both the API adapter and the Puppeteer adapter fail on all of
their retry attempts, `scrapeCommodityPrices` returns normally (it never
raises to the scheduler) with a failure result carrying the concatenated
error list, appends one SCRAPER_ERROR diagnostic log row, and leaves the
commodity-price store — records and history alike — completely unchanged. -/
theorem total_adapter_failure_recorded_store_untouched
    (today : Nat) (uf hf : ScrapedPrice → Bool) (ae pe : Nat → String)
    (db : DB) (logs : List String) :
    (scrapeCommodityPrices today uf hf
        (fun n => Except.error (ae n)) (fun n => Except.error (pe n)) db logs).1.success
      = false ∧
    (scrapeCommodityPrices today uf hf
        (fun n => Except.error (ae n)) (fun n => Except.error (pe n)) db logs).1.data = [] ∧
    (scrapeCommodityPrices today uf hf
        (fun n => Except.error (ae n)) (fun n => Except.error (pe n)) db logs).1.errors
      = ["API error: " ++ ae 3, "Puppeteer error: " ++ pe 3, "All scraping methods failed"] ∧
    (scrapeCommodityPrices today uf hf
        (fun n => Except.error (ae n)) (fun n => Except.error (pe n)) db logs).2.1 = db ∧
    (scrapeCommodityPrices today uf hf
        (fun n => Except.error (ae n)) (fun n => Except.error (pe n)) db logs).2.2
      = logs ++ ["SCRAPER_ERROR"] := by
  rw [scrapeCommodityPrices]
  rw [scrapeWithRetry_allfail ae, scrapeWithRetry_allfail pe]
  exact ⟨rfl, rfl, rfl, rfl, rfl⟩

end HPP
